import Mathlib

/-!
Verification development for the AI-MicroExpression-Analyzer core:
a shallow embedding in Lean 4 of `stress_model.py` and
`feature_engineering.py`.  Python floats are modelled as rationals (ℚ);
`np.clip(x, lo, hi)` is `min (max x lo) hi`; Python dicts of floats are
association lists; `collections.deque` is a Lean `List` with explicit
front eviction; `np.linalg.norm` distances enter the geometric formulas
as explicit non-negative arguments, since a Euclidean norm is not
rational-valued.  Rationals behave like the reals for every order and
field fact used here, so the clamping, monotonicity, eviction and
edge-detection claims transfer verbatim.
-/

namespace MicroExpr

/-- `np.clip(x, lo, hi)` as used in the source: clamp below at `lo`,
then above at `hi`. -/
def npClip (x lo hi : ℚ) : ℚ := min (max x lo) hi

/-- Dict lookup with default: `d.get(key, default)` over an association
list, embedding the Python `dict.get` calls in `StressEstimator.predict`. -/
def dictGet (m : List (String × ℚ)) (k : String) (d : ℚ) : ℚ :=
  match m.find? (fun p => p.1 == k) with
  | some p => p.2
  | none => d

/-- The fixed `self.weights` dict set in `StressEstimator.__init__`
(`stress_model.py` lines 29-35). -/
def defaultWeights : List (String × ℚ) :=
  [("eyebrow_raise", 3/10), ("lip_tension", 1/4), ("head_nod_intensity", 1/5),
   ("symmetry_delta", 3/20), ("blink_rate", 1/10)]

/-- The fixed `self.scalers` dict set in `StressEstimator.__init__`
(`stress_model.py` lines 36-42). -/
def defaultScalers : List (String × ℚ) :=
  [("eyebrow_raise", 2/25), ("lip_tension", 1), ("head_nod_intensity", 3/2),
   ("symmetry_delta", 1/20), ("blink_rate", 30)]

/-- `self.thresholds["calm"]` = 0.35 (`stress_model.py` line 44). -/
def calmThreshold : ℚ := 7/20

/-- `self.thresholds["mild"]` = 0.65 (`stress_model.py` line 45). -/
def mildThreshold : ℚ := 13/20

/-- One iteration of the loop body in `StressEstimator.predict`:
`weight * min(value / scale, 1.5)` for one `(key, value)` entry
(`stress_model.py` lines 51-53). -/
def contrib (kv : String × ℚ) : ℚ :=
  dictGet defaultWeights kv.1 0 * min (kv.2 / dictGet defaultScalers kv.1 1) (3/2)

/-- The `weighted_sum` accumulation loop of `StressEstimator.predict`
(`stress_model.py` lines 49-53): fold over the feature dict items. -/
def weightedSum (features : List (String × ℚ)) : ℚ :=
  features.foldl (fun acc kv => acc + contrib kv) 0

/-- `score = float(np.clip(weighted_sum, 0.0, 1.5))`
(`stress_model.py` line 54). -/
def score (features : List (String × ℚ)) : ℚ :=
  npClip (weightedSum features) 0 (3/2)

/-- The classification chain of `StressEstimator.predict`
(`stress_model.py` lines 55-60). -/
def classify (s : ℚ) : String :=
  if s < calmThreshold then "calm"
  else if s < mildThreshold then "mild"
  else "high"

/-- The `StressScore` record returned by `predict`: the presentational
icon/label fields are a pure lookup from `level` in `OUTPUT_LABELS` and
carry no extra information, so the embedding keeps `score` and `level`. -/
structure StressScore where
  score : ℚ
  level : String
deriving Repr, DecidableEq

/-- `StressEstimator.predict` (`stress_model.py` lines 48-62). -/
def predict (features : List (String × ℚ)) : StressScore :=
  { score := score features, level := classify (score features) }

/-- The configuration attributes a constructed `StressEstimator` holds
(`stress_model.py` lines 29-46). -/
structure StressConfig where
  weights : List (String × ℚ)
  scalers : List (String × ℚ)
  calm : ℚ
  mild : ℚ
deriving Repr, DecidableEq

/-- The fixed attribute values `StressEstimator.__init__` installs. -/
def defaultConfig : StressConfig :=
  { weights := defaultWeights, scalers := defaultScalers,
    calm := calmThreshold, mild := mildThreshold }

/-- `StressEstimator.__init__` (`stress_model.py` lines 27-46).  Its
Python signature is `def __init__(self) -> None`: it accepts no
configuration parameters, so calling the constructor with an attempted
configuration override raises `TypeError` before any attribute is
assigned, and a parameterless call unconditionally installs the fixed
defaults.  `init o` embeds the constructor call: `o = none` is
`StressEstimator()` and `o = some c` is an attempted override. -/
def StressEstimator.init (override : Option StressConfig) : Except String StressConfig :=
  match override with
  | none => Except.ok defaultConfig
  | some _ => Except.error "TypeError: unexpected constructor argument"

/-- `TemporalMetric` (`feature_engineering.py` lines 37-49): a sliding
time-window event counter.  The `deque` of timestamps is a `List` whose
head is the front of the deque. -/
structure TemporalMetric where
  window_seconds : ℚ
  timestamps : List ℚ
deriving Repr, DecidableEq

/-- `TemporalMetric.add` (`feature_engineering.py` lines 42-45): append
the timestamp at the tail, then pop entries from the front while
`timestamp - head > window_seconds` (the `while` loop is
`List.dropWhile` of that condition, stopping at the first entry young
enough or when the deque empties). -/
def TemporalMetric.add (m : TemporalMetric) (timestamp : ℚ) : TemporalMetric :=
  { m with timestamps :=
      ((m.timestamps ++ [timestamp]).dropWhile
        (fun t0 => decide (timestamp - t0 > m.window_seconds))) }

/-- The `count` property (`feature_engineering.py` lines 47-49):
`len(self.timestamps)`. -/
def TemporalMetric.count (m : TemporalMetric) : ℕ := m.timestamps.length

/-- Feeding a sequence of timestamps to `add`, one call per element. -/
def TemporalMetric.runAdds (m : TemporalMetric) (ts : List ℚ) : TemporalMetric :=
  ts.foldl TemporalMetric.add m

/-- `minutes = max(self.blink_events.window_seconds / 60.0, 1e-3)`
(`feature_engineering.py` line 98). -/
def blinkMinutes (window_seconds : ℚ) : ℚ := max (window_seconds / 60) (1/1000)

/-- The state carried by `FeatureExtractor` that `_compute_blink_rate`
reads and writes: the blink threshold, the `previous_blink_state` flag,
and the `blink_events` counter. -/
structure BlinkTracker where
  blink_threshold : ℚ
  previous_blink_state : Bool
  blink_events : TemporalMetric
deriving Repr, DecidableEq

/-- `FeatureExtractor._compute_blink_rate` (`feature_engineering.py`
lines 82-99) taken at the level of the already-computed average eye
aspect ratio of the frame (line 93) and the frame timestamp: detect the
blink edge, record the event, update `previous_blink_state`, and return
the blinks-per-minute value alongside the updated state. -/
def blinkStep (s : BlinkTracker) (eye_ratio timestamp : ℚ) : BlinkTracker × ℚ :=
  let is_blinking : Bool := decide (eye_ratio < s.blink_threshold)
  let events :=
    if is_blinking && !s.previous_blink_state then s.blink_events.add timestamp
    else s.blink_events
  let minutes := blinkMinutes events.window_seconds
  ({ s with previous_blink_state := is_blinking, blink_events := events },
    (events.count : ℚ) / minutes)

/-- Folding `blinkStep` over a sequence of (eye ratio, timestamp) frames. -/
def runBlink (s : BlinkTracker) (frames : List (ℚ × ℚ)) : BlinkTracker :=
  frames.foldl (fun st p => (blinkStep st p.1 p.2).1) s

/-- A `FeatureExtractor`'s initial blink state under the default
configuration: threshold 0.23, not blinking, empty 60-second window
(`feature_engineering.py` lines 52-69). -/
def initBlinkTracker : BlinkTracker :=
  { blink_threshold := 23/100, previous_blink_state := false,
    blink_events := { window_seconds := 60, timestamps := [] } }

/-- A blink tracker whose event window is 0 seconds wide
(`FeatureExtractor(blink_window_seconds=0.0)`). -/
def zeroWindowTracker : BlinkTracker :=
  { blink_threshold := 23/100, previous_blink_state := false,
    blink_events := { window_seconds := 0, timestamps := [] } }

/-- `deque(maxlen=K).append(v)` for a per-metric smoothing history in
`self.metrics_history` (`feature_engineering.py` lines 62-67): append at
the tail, dropping from the front when the bound is exceeded. -/
def pushWindow (K : ℕ) (w : List ℚ) (v : ℚ) : List ℚ :=
  if K < (w ++ [v]).length then (w ++ [v]).drop ((w ++ [v]).length - K)
  else w ++ [v]

/-- `float(np.mean(window))` over a rolling window. -/
def mean (w : List ℚ) : ℚ := w.sum / (w.length : ℚ)

/-- `FeatureExtractor._eye_aspect_ratio` (`feature_engineering.py` lines
71-80) at the level of the two computed distances: the vertical lid gap
divided by the epsilon-floored horizontal eye width. -/
def eye_aspect_ratio (vertical_gap horizontal_gap : ℚ) : ℚ :=
  vertical_gap / max horizontal_gap (1/100000)

/-- The raw eyebrow-raise value of `_compute_eyebrow_raise`
(`feature_engineering.py` lines 101-109) from the brow and anchor
heights: `(|left_brow_y - anchor_y| + |right_brow_y - anchor_y|) * 0.5`. -/
def eyebrowRaiseRaw (left_brow_y right_brow_y anchor_y : ℚ) : ℚ :=
  (|left_brow_y - anchor_y| + |right_brow_y - anchor_y|) * (1/2)

/-- The raw lip-tension value of `_compute_lip_tension`
(`feature_engineering.py` lines 111-118) from the two mouth distances:
`np.clip((mouth_width / max(mouth_height, 1e-5) - 5.0) / 55.0, 0.0, 1.0)`. -/
def lipTensionRaw (mouth_width mouth_height : ℚ) : ℚ :=
  let raw_ratio := mouth_width / max mouth_height (1/100000)
  npClip ((raw_ratio - 5) / 55) 0 1

/-- `_compute_lip_tension` (`feature_engineering.py` lines 111-120)
including the smoothing: push the raw value into the `lip_tension`
history and return the window mean with the new history. -/
def computeLipTension (K : ℕ) (hist : List ℚ) (mouth_width mouth_height : ℚ) :
    ℚ × List ℚ :=
  let hist' := pushWindow K hist (lipTensionRaw mouth_width mouth_height)
  (mean hist', hist')

/-- The raw head-nod delta of `_compute_head_nod`
(`feature_engineering.py` line 129):
`|nose_y - previous| / max(|chin_y - nose_y|, 1e-5)`. -/
def headNodDelta (nose_y previous chin_y : ℚ) : ℚ :=
  |nose_y - previous| / max |chin_y - nose_y| (1/100000)

/-- `FeatureExtractor._compute_head_nod` (`feature_engineering.py` lines
122-132): given the stored `previous_nose_height`, the `nod` history and
the frame's nose and chin heights, return the emitted value, the new
`previous_nose_height` and the new history. -/
def computeHeadNod (previous_nose_height : Option ℚ) (K : ℕ) (hist : List ℚ)
    (nose_y chin_y : ℚ) : ℚ × Option ℚ × List ℚ :=
  let head_length := |chin_y - nose_y|
  match previous_nose_height with
  | none => (0, some nose_y, hist)
  | some p =>
      let delta := |nose_y - p| / max head_length (1/100000)
      let hist' := pushWindow K hist delta
      (mean hist', some nose_y, hist')

/-- The raw symmetry value of `_compute_symmetry` (`feature_engineering.py`
lines 134-142) from the two cheek-to-nose distances:
`|left_dist - right_dist| / max((left_dist + right_dist) * 0.5, 1e-5)`. -/
def symmetryRaw (left_dist right_dist : ℚ) : ℚ :=
  |left_dist - right_dist| / max ((left_dist + right_dist) * (1/2)) (1/100000)

/-! ## Helper lemmas -/

theorem weightedSum_eq_sum_map (features : List (String × ℚ)) :
    weightedSum features = (features.map contrib).sum := by
  have h : ∀ (l : List (String × ℚ)) (a : ℚ),
      l.foldl (fun acc kv => acc + contrib kv) a = a + (l.map contrib).sum := by
    intro l
    induction l with
    | nil => intro a; simp
    | cons x xs ih =>
      intro a
      simp only [List.foldl_cons, List.map_cons, List.sum_cons, ih]
      ring
  simpa [weightedSum] using h features 0

theorem dictGet_nonneg (m : List (String × ℚ)) (k : String) (d : ℚ)
    (hm : ∀ p ∈ m, 0 ≤ p.2) (hd : 0 ≤ d) : 0 ≤ dictGet m k d := by
  unfold dictGet
  cases hfind : m.find? (fun p => p.1 == k) with
  | none => exact hd
  | some p => exact hm p (List.mem_of_find?_eq_some hfind)

theorem dictGet_pos (m : List (String × ℚ)) (k : String) (d : ℚ)
    (hm : ∀ p ∈ m, 0 < p.2) (hd : 0 < d) : 0 < dictGet m k d := by
  unfold dictGet
  cases hfind : m.find? (fun p => p.1 == k) with
  | none => exact hd
  | some p => exact hm p (List.mem_of_find?_eq_some hfind)

theorem defaultWeights_nonneg : ∀ p ∈ defaultWeights, (0 : ℚ) ≤ p.2 := by
  intro p hp
  simp only [defaultWeights, List.mem_cons, List.mem_singleton] at hp
  rcases hp with h | h | h | h | h | h <;> first
    | (subst h; norm_num)
    | exact absurd h (by simp)

theorem defaultScalers_pos : ∀ p ∈ defaultScalers, (0 : ℚ) < p.2 := by
  intro p hp
  simp only [defaultScalers, List.mem_cons, List.mem_singleton] at hp
  rcases hp with h | h | h | h | h | h <;> first
    | (subst h; norm_num)
    | exact absurd h (by simp)

theorem contrib_mono (k : String) (v v' : ℚ) (h : v ≤ v') :
    contrib (k, v) ≤ contrib (k, v') := by
  unfold contrib
  have hw : (0 : ℚ) ≤ dictGet defaultWeights k 0 :=
    dictGet_nonneg _ _ _ defaultWeights_nonneg le_rfl
  have hs : (0 : ℚ) < dictGet defaultScalers k 1 :=
    dictGet_pos _ _ _ defaultScalers_pos one_pos
  have hdiv : v / dictGet defaultScalers k 1 ≤ v' / dictGet defaultScalers k 1 :=
    div_le_div_of_nonneg_right h hs.le
  exact mul_le_mul_of_nonneg_left (min_le_min hdiv le_rfl) hw

theorem dropWhile_all_false {α : Type} (p : α → Bool) (l : List α)
    (h : ∀ x ∈ l, p x = false) : l.dropWhile p = l := by
  cases l with
  | nil => rfl
  | cons a l =>
    rw [List.dropWhile_cons, if_neg]
    simp [h a (List.mem_cons_self a l)]

theorem dropWhile_age_bound (W t : ℚ) (l : List ℚ) (hl : l.Pairwise (· ≤ ·)) :
    ∀ t0 ∈ l.dropWhile (fun x => decide (t - x > W)), t - t0 ≤ W := by
  induction l with
  | nil => simp
  | cons a l ih =>
    intro t0 ht0
    rw [List.dropWhile_cons] at ht0
    by_cases h : t - a > W
    · rw [if_pos (by simpa using h)] at ht0
      exact ih hl.of_cons t0 ht0
    · rw [if_neg (by simpa using h)] at ht0
      rcases List.mem_cons.mp ht0 with rfl | hmem
      · exact not_lt.mp h
      · have hat0 : a ≤ t0 := (List.pairwise_cons.mp hl).1 t0 hmem
        have haw : t - a ≤ W := not_lt.mp h
        linarith

theorem add_eq_append (W t : ℚ) (l : List ℚ) (h0 : 0 ≤ W)
    (h : ∀ x ∈ l, x ≤ t ∧ t - x ≤ W) :
    TemporalMetric.add ⟨W, l⟩ t = ⟨W, l ++ [t]⟩ := by
  simp only [TemporalMetric.add, TemporalMetric.mk.injEq, true_and]
  apply dropWhile_all_false
  intro x hx
  rcases List.mem_append.mp hx with hxl | hxt
  · simpa using not_lt.mpr (h x hxl).2
  · have : x = t := by simpa using hxt
    subst this
    simpa [sub_self] using not_lt.mpr h0

theorem runAdds_no_eviction (W : ℚ) (h0 : 0 ≤ W) :
    ∀ (ts l : List ℚ),
      (l ++ ts).Pairwise (fun a b => a ≤ b ∧ b - a ≤ W) →
      (TemporalMetric.runAdds ⟨W, l⟩ ts).timestamps = l ++ ts := by
  intro ts
  induction ts with
  | nil => intro l _; simp [TemporalMetric.runAdds]
  | cons t ts ih =>
    intro l h
    have hrel : ∀ x ∈ l, x ≤ t ∧ t - x ≤ W := by
      intro x hx
      exact (List.pairwise_append.mp h).2.2 x hx t (List.mem_cons_self t ts)
    show (TemporalMetric.runAdds (TemporalMetric.add ⟨W, l⟩ t) ts).timestamps = _
    rw [add_eq_append W t l h0 hrel]
    have h' : ((l ++ [t]) ++ ts).Pairwise (fun a b => a ≤ b ∧ b - a ≤ W) := by
      rw [List.append_assoc, List.singleton_append]
      exact h
    rw [ih (l ++ [t]) h', List.append_assoc, List.singleton_append]

theorem mean_nonneg (l : List ℚ) (h : ∀ x ∈ l, 0 ≤ x) : 0 ≤ mean l :=
  div_nonneg (List.sum_nonneg h) (Nat.cast_nonneg _)

theorem mean_le_one (l : List ℚ) (hne : l ≠ []) (h : ∀ x ∈ l, x ≤ 1) :
    mean l ≤ 1 := by
  have hlen : 0 < (l.length : ℚ) := by
    exact_mod_cast List.length_pos.mpr hne
  rw [mean, div_le_one hlen]
  calc l.sum ≤ l.length • (1 : ℚ) := List.sum_le_card_nsmul l 1 h
    _ = (l.length : ℚ) := by simp

theorem pushWindow_mem (K : ℕ) (w : List ℚ) (v : ℚ) :
    ∀ x ∈ pushWindow K w v, x ∈ w ∨ x = v := by
  intro x hx
  unfold pushWindow at hx
  have hx' : x ∈ w ++ [v] := by
    split at hx
    · exact List.mem_of_mem_drop hx
    · exact hx
  simpa using List.mem_append.mp hx'

theorem pushWindow_ne_nil (K : ℕ) (w : List ℚ) (v : ℚ) (hK : 0 < K) :
    pushWindow K w v ≠ [] := by
  unfold pushWindow
  split
  · apply List.ne_nil_of_length_pos
    rw [List.length_drop]
    omega
  · simp

theorem defaultWeights_pos : ∀ p ∈ defaultWeights, (0 : ℚ) < p.2 := by
  intro p hp
  simp only [defaultWeights, List.mem_cons, List.mem_singleton] at hp
  rcases hp with h | h | h | h | h | h <;> first
    | (subst h; norm_num)
    | exact absurd h (by simp)

/-! ## Claim theorems -/

/-- C1: for every input feature vector, `StressEstimator.predict` returns
a `StressScore` whose `score` field lies in the closed interval
`[0, 1.5]`. -/
theorem predict_score_mem_unit_interval (features : List (String × ℚ)) :
    0 ≤ (predict features).score ∧ (predict features).score ≤ 3/2 := by
  constructor
  · exact le_min (le_max_right _ _) (by norm_num) |>.trans_eq rfl
  · exact min_le_right _ _

/-- C2: `StressEstimator.predict`'s score is monotone non-decreasing in
each individual feature value, holding the others fixed: raising the
value at any one position of the feature mapping never decreases the
returned score. -/
theorem predict_score_monotone (a b : List (String × ℚ)) (k : String)
    (v v' : ℚ) (h : v ≤ v') :
    (predict (a ++ (k, v) :: b)).score ≤ (predict (a ++ (k, v') :: b)).score := by
  have hsum : weightedSum (a ++ (k, v) :: b) ≤ weightedSum (a ++ (k, v') :: b) := by
    rw [weightedSum_eq_sum_map, weightedSum_eq_sum_map]
    simp only [List.map_append, List.map_cons, List.sum_append, List.sum_cons]
    have := contrib_mono k v v' h
    linarith
  show npClip _ 0 (3/2) ≤ npClip _ 0 (3/2)
  exact min_le_min (max_le_max hsum le_rfl) le_rfl

/-- Witness for C2 at a concrete pair of feature vectors. -/
theorem predict_score_monotone_witness :
    (predict [("lip_tension", 0)]).score ≤ (predict [("lip_tension", 1)]).score :=
  predict_score_monotone [] [] "lip_tension" 0 1 (by norm_num)

/-- C3: classification uses half-open intervals at the default
thresholds: the concrete feature vector `[("lip_tension", 1.4)]` produces
score exactly 0.35 and level `mild` (not `calm`); the concrete vector
`[("eyebrow_raise", 0.12), ("head_nod_intensity", 1.5)]` produces score
exactly 0.65 and level `high` (not `mild`); and in general
`score < 0.35` gives `calm`, `0.35 ≤ score < 0.65` gives `mild`, and
`score ≥ 0.65` gives `high`. -/
theorem predict_classification_boundaries :
    ((predict [("lip_tension", 7/5)]).score = 7/20 ∧
      (predict [("lip_tension", 7/5)]).level = "mild") ∧
    ((predict [("eyebrow_raise", 3/25), ("head_nod_intensity", 3/2)]).score = 13/20 ∧
      (predict [("eyebrow_raise", 3/25), ("head_nod_intensity", 3/2)]).level = "high") ∧
    ∀ f : List (String × ℚ),
      ((predict f).score < 7/20 → (predict f).level = "calm") ∧
      (7/20 ≤ (predict f).score → (predict f).score < 13/20 →
        (predict f).level = "mild") ∧
      (13/20 ≤ (predict f).score → (predict f).level = "high") := by
  have wl : dictGet defaultWeights "lip_tension" 0 = 1/4 := rfl
  have sl : dictGet defaultScalers "lip_tension" 1 = 1 := rfl
  have we : dictGet defaultWeights "eyebrow_raise" 0 = 3/10 := rfl
  have se : dictGet defaultScalers "eyebrow_raise" 1 = 2/25 := rfl
  have wn : dictGet defaultWeights "head_nod_intensity" 0 = 1/5 := rfl
  have sn : dictGet defaultScalers "head_nod_intensity" 1 = 3/2 := rfl
  have e1 : score [("lip_tension", 7/5)] = 7/20 := by
    norm_num [score, npClip, weightedSum, contrib, wl, sl, min_def, max_def]
  have e2 : score [("eyebrow_raise", 3/25), ("head_nod_intensity", 3/2)] = 13/20 := by
    norm_num [score, npClip, weightedSum, contrib, we, se, wn, sn, min_def, max_def]
  refine ⟨⟨e1, ?_⟩, ⟨e2, ?_⟩, fun f => ⟨?_, ?_, ?_⟩⟩
  · show classify (score [("lip_tension", 7/5)]) = "mild"
    rw [e1]; norm_num [classify, calmThreshold, mildThreshold]
  · show classify (score [("eyebrow_raise", 3/25), ("head_nod_intensity", 3/2)]) = "high"
    rw [e2]; norm_num [classify, calmThreshold, mildThreshold]
  · intro hlt
    simp only [predict, classify, calmThreshold] at hlt ⊢
    rw [if_pos hlt]
  · intro hge hlt
    simp only [predict, classify, calmThreshold, mildThreshold] at hge hlt ⊢
    rw [if_neg (not_lt.mpr hge), if_pos hlt]
  · intro hge
    simp only [predict, classify, calmThreshold, mildThreshold] at hge ⊢
    rw [if_neg (not_lt.mpr (le_trans (by norm_num) hge)), if_neg (not_lt.mpr hge)]

/-- Witness for C3's conditional clauses at concrete inputs. -/
theorem predict_classification_boundaries_witness :
    (predict []).level = "calm" :=
  (predict_classification_boundaries.2.2 []).1
    (by norm_num [predict, score, npClip, weightedSum, min_def, max_def])

/-- C4: a blink event is appended to the windowed counter only on the
eyes-open to eyes-blinking transition: no event when the ratio is at or
above the threshold (frame stays open, or reopening edge), no event when
already blinking, an event exactly on the falling edge; and the concrete
ratio sequence `[0.30, 0.20, 0.20, 0.20, 0.30]` at threshold 0.23 with
timestamps `[0, 1, 2, 3, 4]` records exactly one event, timestamped at
the first sub-threshold frame. -/
theorem blink_edge_detection :
    (∀ (s : BlinkTracker) (r t : ℚ), s.blink_threshold ≤ r →
      (blinkStep s r t).1.blink_events = s.blink_events) ∧
    (∀ (s : BlinkTracker) (r t : ℚ), s.previous_blink_state = true →
      (blinkStep s r t).1.blink_events = s.blink_events) ∧
    (∀ (s : BlinkTracker) (r t : ℚ), r < s.blink_threshold →
      s.previous_blink_state = false →
      (blinkStep s r t).1.blink_events = s.blink_events.add t) ∧
    ((runBlink initBlinkTracker
        [(3/10, 0), (1/5, 1), (1/5, 2), (1/5, 3), (3/10, 4)]).blink_events.timestamps
      = [1] ∧
     (runBlink initBlinkTracker
        [(3/10, 0), (1/5, 1), (1/5, 2), (1/5, 3), (3/10, 4)]).blink_events.count = 1) := by
  refine ⟨?_, ?_, ?_, ?_, ?_⟩
  · intro s r t h
    simp [blinkStep, decide_eq_false (not_lt.mpr h)]
  · intro s r t h
    simp [blinkStep, h]
  · intro s r t hr hp
    simp [blinkStep, hp, decide_eq_true hr]
  · norm_num [runBlink, blinkStep, initBlinkTracker, TemporalMetric.add,
      List.foldl, List.dropWhile]
  · norm_num [runBlink, blinkStep, initBlinkTracker, TemporalMetric.add,
      TemporalMetric.count, List.foldl, List.dropWhile]

/-- Witness for C4's conditional clauses at a concrete state and frame. -/
theorem blink_edge_detection_witness :
    (blinkStep initBlinkTracker (3/10) 0).1.blink_events =
      initBlinkTracker.blink_events :=
  blink_edge_detection.1 initBlinkTracker (3/10) 0 (by norm_num [initBlinkTracker])

/-- C5: for monotone timestamp feeds, `TemporalMetric` keeps exactly the
events within the trailing window: `count` is the number of stored
timestamps; one `add` of a timestamp `t` no earlier than every stored
entry leaves a sorted store, bounded by `t`, in which every entry `t0`
satisfies `t - t0 ≤ window_seconds`; adding any non-decreasing sequence
of events pairwise within `W` seconds of each other yields
`count = N` with nothing evicted; and adding one event then a second one
`W + 1` seconds later evicts the first, leaving `count = 1`. -/
theorem temporal_window_invariant :
    (∀ m : TemporalMetric, m.count = m.timestamps.length) ∧
    (∀ (m : TemporalMetric) (t : ℚ),
      m.timestamps.Pairwise (· ≤ ·) → (∀ x ∈ m.timestamps, x ≤ t) →
      ((m.add t).timestamps.Pairwise (· ≤ ·) ∧
       (∀ x ∈ (m.add t).timestamps, x ≤ t) ∧
       (∀ t0 ∈ (m.add t).timestamps, t - t0 ≤ m.window_seconds))) ∧
    (∀ (W : ℚ) (ts : List ℚ), 0 ≤ W →
      ts.Pairwise (fun a b => a ≤ b ∧ b - a ≤ W) →
      (TemporalMetric.runAdds ⟨W, []⟩ ts).count = ts.length) ∧
    (∀ (W t : ℚ), 0 ≤ W →
      ((((⟨W, []⟩ : TemporalMetric).add t).add (t + W + 1)).count = 1 ∧
       (((⟨W, []⟩ : TemporalMetric).add t).add (t + W + 1)).timestamps = [t + W + 1])) := by
  refine ⟨fun m => rfl, ?_, ?_, ?_⟩
  · intro m t hl hle
    have happ : (m.timestamps ++ [t]).Pairwise (· ≤ ·) := by
      rw [List.pairwise_append]
      refine ⟨hl, List.pairwise_singleton _ _, ?_⟩
      intro x hx y hy
      have : y = t := by simpa using hy
      subst this
      exact hle x hx
    have hts : (m.add t).timestamps =
        (m.timestamps ++ [t]).dropWhile
          (fun t0 => decide (t - t0 > m.window_seconds)) := rfl
    refine ⟨?_, ?_, ?_⟩
    · rw [hts]
      exact happ.sublist (List.dropWhile_sublist _)
    · intro x hx
      rw [hts] at hx
      have hx' : x ∈ m.timestamps ++ [t] :=
        (List.dropWhile_sublist _).subset hx
      rcases List.mem_append.mp hx' with h | h
      · exact hle x h
      · exact le_of_eq (by simpa using h)
    · rw [hts]
      exact dropWhile_age_bound m.window_seconds t (m.timestamps ++ [t]) happ
  · intro W ts h0 hp
    show (TemporalMetric.runAdds ⟨W, []⟩ ts).timestamps.length = ts.length
    rw [runAdds_no_eviction W h0 ts [] (by simpa using hp)]
    simp
  · intro W t h0
    have h1 : ((⟨W, []⟩ : TemporalMetric).add t) = ⟨W, [t]⟩ :=
      add_eq_append W t [] h0 (by simp)
    have e1 : t + W + 1 - t = W + 1 := by ring
    have e2 : t + W + 1 - (t + W + 1) = 0 := by ring
    have hlt : W < W + 1 := lt_add_one W
    have hnlt : ¬ (W < 0) := not_lt.mpr h0
    rw [h1]
    constructor
    · show (TemporalMetric.add ⟨W, [t]⟩ (t + W + 1)).timestamps.length = 1
      simp [TemporalMetric.add, List.dropWhile, e1, e2, hlt, hnlt]
    · simp [TemporalMetric.add, List.dropWhile, e1, e2, hlt, hnlt]

/-- Witness for C5's conditional clauses: two concrete `add` sequences,
one fully inside a 60-second window, one with an eviction. -/
theorem temporal_window_invariant_witness :
    (TemporalMetric.runAdds ⟨60, []⟩ [0, 1, 2]).count = 3 ∧
    (((⟨60, []⟩ : TemporalMetric).add 0).add (0 + 60 + 1)).count = 1 :=
  ⟨temporal_window_invariant.2.2.1 60 [0, 1, 2] (by norm_num)
      (by norm_num [List.pairwise_cons]),
   (temporal_window_invariant.2.2.2 60 0 (by norm_num)).1⟩

/-- C10: the blink-rate divisor is `max(window_seconds / 60, 0.001)`, so
it is bounded below by 0.001 (hence positive) for every window
configuration; with `blink_window_seconds = 0` the divisor is exactly
0.001 and the returned rate is `1000 * count`, a finite rational — no
division by zero occurs. -/
theorem blink_rate_divisor_positive :
    (∀ w : ℚ, 1/1000 ≤ blinkMinutes w ∧ 0 < blinkMinutes w) ∧
    blinkMinutes 0 = 1/1000 ∧
    (∀ (s : BlinkTracker) (r t : ℚ), s.blink_events.window_seconds = 0 →
      (blinkStep s r t).2 = 1000 * ((blinkStep s r t).1.blink_events.count : ℚ)) := by
  refine ⟨fun w => ⟨le_max_right _ _, lt_of_lt_of_le (by norm_num) (le_max_right _ _)⟩,
    ?_, ?_⟩
  · show max ((0 : ℚ) / 60) (1/1000) = 1/1000
    norm_num
  · intro s r t hw
    have hw' : ((if decide (r < s.blink_threshold) && !s.previous_blink_state
        then s.blink_events.add t else s.blink_events)).window_seconds = 0 := by
      split <;> simpa [TemporalMetric.add]
    simp only [blinkStep]
    rw [hw']
    show _ / blinkMinutes 0 = _
    rw [show blinkMinutes 0 = 1/1000 by norm_num [blinkMinutes]]
    ring

/-- Witness for C10's conditional clause at a concrete zero-window state. -/
theorem blink_rate_divisor_positive_witness :
    (blinkStep zeroWindowTracker 1 0).2 =
      1000 * ((blinkStep zeroWindowTracker 1 0).1.blink_events.count : ℚ) :=
  blink_rate_divisor_positive.2.2 zeroWindowTracker 1 0 rfl

/-- C6: the raw lip-tension value is
`clip((mouth_width / max(mouth_height, 1e-5) - 5) / 55, 0, 1)`, with the
calibration constants 5 and 55 exactly; it always lies in `[0, 1]`; and
the smoothed value the extractor returns — the mean of the rolling
window after the raw value is pushed — lies in `[0, 1]` whenever the
stored history holds clipped values and the window size is positive. -/
theorem lip_tension_clipping :
    (∀ w h : ℚ, lipTensionRaw w h =
      min (max ((w / max h (1/100000) - 5) / 55) 0) 1) ∧
    (∀ w h : ℚ, 0 ≤ lipTensionRaw w h ∧ lipTensionRaw w h ≤ 1) ∧
    (∀ (K : ℕ) (hist : List ℚ) (w h : ℚ), 0 < K →
      (∀ x ∈ hist, 0 ≤ x ∧ x ≤ 1) →
      0 ≤ (computeLipTension K hist w h).1 ∧
        (computeLipTension K hist w h).1 ≤ 1) := by
  have hraw : ∀ w h : ℚ, 0 ≤ lipTensionRaw w h ∧ lipTensionRaw w h ≤ 1 := by
    intro w h
    exact ⟨le_min (le_max_right _ _) zero_le_one, min_le_right _ _⟩
  refine ⟨fun w h => rfl, hraw, ?_⟩
  intro K hist w h hK hhist
  have hmem : ∀ x ∈ pushWindow K hist (lipTensionRaw w h), 0 ≤ x ∧ x ≤ 1 := by
    intro x hx
    rcases pushWindow_mem K hist _ x hx with hxh | rfl
    · exact hhist x hxh
    · exact hraw w h
  have hne := pushWindow_ne_nil K hist (lipTensionRaw w h) hK
  exact ⟨mean_nonneg _ (fun x hx => (hmem x hx).1),
         mean_le_one _ hne (fun x hx => (hmem x hx).2)⟩

/-- Witness for C6's conditional clause at a concrete window and frame. -/
theorem lip_tension_clipping_witness :
    0 ≤ (computeLipTension 5 [] 1 1).1 ∧ (computeLipTension 5 [] 1 1).1 ≤ 1 :=
  lip_tension_clipping.2.2 5 [] 1 1 (by norm_num) (by simp)

/-- C7: on the first frame (no stored previous nose height),
`_compute_head_nod` returns exactly 0.0 for every landmark content,
stores the current nose height as the new previous value, and leaves the
`nod` rolling window untouched. -/
theorem head_nod_first_frame (K : ℕ) (hist : List ℚ) (nose_y chin_y : ℚ) :
    computeHeadNod none K hist nose_y chin_y = (0, some nose_y, hist) := rfl

/-- C8: every geometric metric computation is a total function whose
denominator is floored at 1e-5 (hence positive, so no division by zero
and no infinite or undefined value can arise) and whose numerator is a
distance or absolute value, so each raw metric — eye aspect ratio,
eyebrow raise, lip tension, head-nod delta, symmetry delta — and each
smoothed mean of such values is non-negative, for any input geometry
including coinciding reference points. -/
theorem geometric_formulas_total_nonneg :
    (∀ h : ℚ, (0 : ℚ) < 1/100000 ∧ (1 : ℚ)/100000 ≤ max h (1/100000)) ∧
    (∀ v h : ℚ, 0 ≤ v → 0 ≤ eye_aspect_ratio v h) ∧
    (∀ lb rb a : ℚ, 0 ≤ eyebrowRaiseRaw lb rb a) ∧
    (∀ w h : ℚ, 0 ≤ lipTensionRaw w h) ∧
    (∀ n p c : ℚ, 0 ≤ headNodDelta n p c) ∧
    (∀ l r : ℚ, 0 ≤ symmetryRaw l r) ∧
    (∀ l : List ℚ, (∀ x ∈ l, 0 ≤ x) → 0 ≤ mean l) := by
  have hden : ∀ x : ℚ, (0 : ℚ) ≤ max x (1/100000) :=
    fun x => le_trans (by norm_num) (le_max_right x _)
  refine ⟨fun h => ⟨by norm_num, le_max_right h _⟩, ?_, ?_, ?_, ?_, ?_, mean_nonneg⟩
  · intro v h hv
    exact div_nonneg hv (hden h)
  · intro lb rb a
    exact mul_nonneg (add_nonneg (abs_nonneg _) (abs_nonneg _)) (by norm_num)
  · intro w h
    exact le_min (le_max_right _ _) zero_le_one
  · intro n p c
    exact div_nonneg (abs_nonneg _) (hden _)
  · intro l r
    exact div_nonneg (abs_nonneg _) (hden _)

/-- Witness for C8's conditional clauses at degenerate concrete
geometry: both eye reference points coincide and the history is empty. -/
theorem geometric_formulas_total_nonneg_witness :
    0 ≤ eye_aspect_ratio 0 0 ∧ 0 ≤ mean [] :=
  ⟨geometric_formulas_total_nonneg.2.1 0 0 le_rfl,
   geometric_formulas_total_nonneg.2.2.2.2.2.2 [] (by simp)⟩

/-- C9: `StressEstimator.__init__` accepts no configuration parameters:
any attempted construction with a configuration override — in particular
one holding a non-positive weight, scale or threshold — fails with a
`TypeError` before any attribute is assigned (nothing is partially
applied), so construction never succeeds with such a configuration; the
only successful construction is the parameterless one, and it installs
the fixed defaults, whose weights and scales are all positive and whose
thresholds satisfy `0 < 0.35 < 0.65 ≤ 1`. -/
theorem init_rejects_any_configuration :
    (∀ c : StressConfig, StressEstimator.init (some c) =
      Except.error "TypeError: unexpected constructor argument") ∧
    (∀ (o : Option StressConfig) (c : StressConfig),
      StressEstimator.init o = Except.ok c → c = defaultConfig ∧ o = none) ∧
    (∀ p ∈ defaultConfig.weights, 0 < p.2) ∧
    (∀ p ∈ defaultConfig.scalers, 0 < p.2) ∧
    0 < defaultConfig.calm ∧ defaultConfig.calm < defaultConfig.mild ∧
      defaultConfig.mild ≤ 1 := by
  refine ⟨fun c => rfl, ?_, defaultWeights_pos, defaultScalers_pos, ?_, ?_, ?_⟩
  · intro o c h
    cases o with
    | none =>
      refine ⟨?_, rfl⟩
      have : defaultConfig = c := by
        simpa [StressEstimator.init] using h
      exact this.symm
    | some c' => simp [StressEstimator.init] at h
  · norm_num [defaultConfig, calmThreshold]
  · norm_num [defaultConfig, calmThreshold, mildThreshold]
  · norm_num [defaultConfig, mildThreshold]

/-- Witness for C9's conditional clause: the parameterless construction
succeeds and its result is pinned to the defaults. -/
theorem init_rejects_any_configuration_witness :
    defaultConfig = defaultConfig ∧ (none : Option StressConfig) = none :=
  init_rejects_any_configuration.2.1 none defaultConfig rfl

end MicroExpr
